import Mathlib

/-!
Verification development for the slogscope repository (Go).

The definitions below are a shallow embedding of the authoritative source:
`handler.go` (Handler, NewHandler, Enabled, GetConfig, UseConfig,
UseConfigTemporarily, UseConfigFile) and `slogscope.go`
(initConfigFileWatcher, initHandler, loadConfig, getLogLevel).

Conventions of the embedding:
* Go strings are `List Char`.
* `slog.Level` and Go `int` are `Int`; Go `int` is modelled as 64-bit
  (the standard platform width), with two's-complement wrap-around made
  explicit via `wrap64` where additions can overflow.
* `strings.ToUpper` is modelled on ASCII (the regexp classes `[a-zA-Z]`
  and `\d` are ASCII-only in Go's RE2 syntax; Unicode special case
  mappings of non-ASCII letters are outside the modelled input space).
* The file system is a function from file name to the outcome the code
  distinguishes: absent (stat fails with not-exist), unreadable
  (os.ReadFile error), YAML decode error, or a decoded Config.
* Logging side effects (the internal debug logger) are ignored; caller
  stack introspection (`getCallerInfo`) is modelled as an explicit
  caller-package argument to `Enabled`.
-/

/-! ### Level tokens and character classes -/

/-- The canonical token "DEBUG" (constant `LogLevelDebug`). -/
def dbgTok : List Char := ['D', 'E', 'B', 'U', 'G']

/-- The canonical token "INFO" (constant `LogLevelInfo`). -/
def infoTok : List Char := ['I', 'N', 'F', 'O']

/-- The canonical token "WARN" (constant `LogLevelWarn`). -/
def warnTok : List Char := ['W', 'A', 'R', 'N']

/-- The canonical token "ERROR" (constant `LogLevelError`). -/
def errTok : List Char := ['E', 'R', 'R', 'O', 'R']

/-- ASCII letter, the regexp class `[a-zA-Z]`. -/
def isAsciiLetter (c : Char) : Bool :=
  decide ((65 ≤ c.toNat ∧ c.toNat ≤ 90) ∨ (97 ≤ c.toNat ∧ c.toNat ≤ 122))

/-- ASCII digit, the regexp class `\d`. -/
def isAsciiDigit (c : Char) : Bool :=
  decide (48 ≤ c.toNat ∧ c.toNat ≤ 57)

/-- ASCII lowercase letter. -/
def isLowerAlpha (c : Char) : Bool :=
  decide (97 ≤ c.toNat ∧ c.toNat ≤ 122)

/-- `strings.ToUpper`, restricted to the ASCII case mapping. -/
def asciiUpper (c : Char) : Char :=
  if isLowerAlpha c then Char.ofNat (c.toNat - 32) else c

/-! ### The regexp match of getLogLevel

`regexp.MustCompile("([a-zA-Z]+)(([+\\-])(\\d+))?").FindStringSubmatch`
returns the leftmost match: the first maximal run of ASCII letters,
optionally followed immediately by a sign and a nonempty digit run.
`none` models the nil result (no letter anywhere in the string). -/

/-- The capture groups of a successful regexp match in `getLogLevel`:
group 1 (the letter run), group 3 (the sign, when group 2 matched) and
group 4 (the digits, when group 2 matched). -/
structure LevelMatch where
  name : List Char
  sign : Option Char
  digits : List Char
deriving DecidableEq, Repr

/-- Leftmost match of `([a-zA-Z]+)(([+\-])(\d+))?` on the input. -/
def findLevelMatch : List Char → Option LevelMatch
  | [] => none
  | c :: rest =>
    if isAsciiLetter c then
      let name := c :: rest.takeWhile isAsciiLetter
      let after := rest.dropWhile isAsciiLetter
      some (match after with
        | [] => ⟨name, none, []⟩
        | s :: ds =>
          if (s == '+' || s == '-') && !(ds.takeWhile isAsciiDigit).isEmpty then
            ⟨name, some s, ds.takeWhile isAsciiDigit⟩
          else ⟨name, none, []⟩)
    else findLevelMatch rest

/-- The `levelMap` literal of `getLogLevel`: canonical names to
`slog.Level` values (Debug -4, Info 0, Warn 4, Error 8); absent keys
yield `none` (the map's zero-value lookup / `!ok`). -/
def levelBase (name : List Char) : Option Int :=
  if name = dbgTok then some (-4)
  else if name = infoTok then some 0
  else if name = warnTok then some 4
  else if name = errTok then some 8
  else none

/-- Decimal value of a digit run (the mathematical value, before any
machine-width considerations). -/
def digitsVal (ds : List Char) : Nat :=
  ds.foldl (fun a c => 10 * a + (c.toNat - 48)) 0

/-- Maximum value of Go's 64-bit `int`. -/
def maxInt : Int := 2 ^ 63 - 1

/-- `strconv.Atoi` applied to a nonempty all-digit string: the exact
value when it fits in `int`, otherwise the saturated maximum `2^63 - 1`
together with an `ErrRange` error (which `getLogLevel` discards). -/
def goAtoi (ds : List Char) : Int :=
  if (digitsVal ds : Int) ≤ maxInt then (digitsVal ds : Int) else maxInt

/-- Two's-complement wrap-around of Go 64-bit `int` arithmetic. -/
def wrap64 (x : Int) : Int :=
  (x + 2 ^ 63) % 2 ^ 64 - 2 ^ 63

/-- `slogscope.getLogLevel` (slogscope.go): convert a level token to a
`slog.Level`, falling back to the default level INFO (0) when the
regexp finds no letter run or the letter run is not a canonical name. -/
def getLogLevel (level : List Char) : Int :=
  let up := level.map asciiUpper
  match findLevelMatch up with
  | none => 0
  | some m =>
    match levelBase m.name with
    | none => 0
    | some base =>
      match m.sign with
      | none => base
      | some s =>
        if s = '-' then wrap64 (base - goAtoi m.digits)
        else wrap64 (base + goAtoi m.digits)


/-! ### Configuration data model (types.go) -/

/-- `Package`: a per-package override entry of the YAML config. -/
structure GoPackage where
  name : List Char
  logLevel : List Char
deriving DecidableEq, Repr

/-- `Config`: the global log level plus the package override list. -/
structure Config where
  logLevel : List Char
  packages : List GoPackage
deriving DecidableEq, Repr

/-- `HandlerOptions` (types.go): `ConfigFile` is a nullable pointer. -/
structure HandlerOpts where
  debugFlag : Bool
  config : Option Config
  configFile : Option (List Char)
  enableFileWatcher : Bool
deriving DecidableEq, Repr

/-- The constant `defaultConfigFile = "slogscope.yml"`. -/
def defaultConfigFileTok : List Char :=
  ['s', 'l', 'o', 'g', 's', 'c', 'o', 'p', 'e', '.', 'y', 'm', 'l']

/-- The default configuration `initHandler` installs when
`opts.Config == nil`: global level INFO, no overrides. -/
def defaultConfig : Config := ⟨infoTok, []⟩

/-! ### The package map (sync.Map built by initHandler) -/

/-- `sync.Map.Store`: overwrite the binding for a key. -/
def storeKV (m : List (List Char × Int)) (k : List Char) (v : Int) :
    List (List Char × Int) :=
  match m with
  | [] => [(k, v)]
  | (k', v') :: rest => if k' = k then (k, v) :: rest else (k', v') :: storeKV rest k v

/-- `sync.Map.Load`. -/
def loadKV (m : List (List Char × Int)) (k : List Char) : Option Int :=
  match m with
  | [] => none
  | (k', v) :: rest => if k' = k then some v else loadKV rest k

/-- The `pkgMap` rebuilt by `initHandler`: iterate over
`Config.Packages` in order, storing each name with its resolved level
(`getLogLevel`); a later duplicate name overwrites an earlier one. -/
def buildPkgMap (cfg : Config) : List (List Char × Int) :=
  cfg.packages.foldl (fun m p => storeKV m p.name (getLogLevel p.logLevel)) []

/-! ### File system and engine state -/

/-- Outcome of accessing a config file, as the code distinguishes them:
`absent` (os.Stat reports not-exist, so `checkFileExists` is false),
`unreadable` (os.ReadFile fails), `badYaml` (yaml.Unmarshal fails), or
a successfully decoded `Config`. -/
inductive FileContent
  | absent
  | unreadable
  | badYaml
  | ok (cfg : Config)
deriving DecidableEq, Repr

/-- The file system, indexed by file name. -/
def FS := List Char → FileContent

/-- `checkFileExists` (slogscope.go): true unless os.Stat reports
not-exist; a file that exists but cannot be read still "exists". -/
def fileExists (fs : FS) (f : List Char) : Bool :=
  fs f != FileContent.absent

/-- The mutable state of the `slogscope` struct that the claims are
about: the current `HandlerOptions` (holding the current `Config`),
the rebuilt `pkgMap`, and whether a watcher goroutine is live
(`doneCh != nil`). -/
structure HandlerState where
  opts : HandlerOpts
  pkgMap : List (List Char × Int)
  watcherArmed : Bool
deriving DecidableEq, Repr

/-- `slogscope.loadConfig` (slogscope.go): read and decode
`*opts.ConfigFile`; on a missing, unreadable or undecodable file set
`opts.Config = nil`, otherwise store the decoded config. (The
`configFile = none` case cannot occur after `NewHandler`, which always
installs a file name; it is modelled as a no-op.) -/
def loadConfigOp (fs : FS) (st : HandlerState) : HandlerState :=
  match st.opts.configFile with
  | none => st
  | some f =>
    match fs f with
    | FileContent.ok cfg => { st with opts := { st.opts with config := some cfg } }
    | _ => { st with opts := { st.opts with config := none } }

/-- `slogscope.initHandler` (slogscope.go): install the default
Config when none is present, rebuild `pkgMap` from the current
Config, close any previous watcher, and arm a fresh watcher when
`EnableFileWatcher` is set and a config file name is bound
(`initConfigFileWatcher` declines to arm when the file is absent). -/
def initHandlerOp (fs : FS) (st : HandlerState) : HandlerState :=
  let cfg := st.opts.config.getD defaultConfig
  let opts := { st.opts with config := some cfg }
  { opts := opts
    pkgMap := buildPkgMap cfg
    watcherArmed :=
      opts.enableFileWatcher &&
        (match opts.configFile with
         | some f => fileExists fs f
         | none => false) }

/-- `Handler.GetConfig` (handler.go): `return *h.opts.Config`, a copy
of the current configuration. The dereference requires a non-nil
Config; every state reachable after construction satisfies that, and
theorems that rely on the value carry it as a hypothesis. -/
def getConfig (st : HandlerState) : Config :=
  st.opts.config.getD defaultConfig

/-- `Handler.Enabled` (handler.go): resolve the caller's package name
(modelled as the explicit `callerPkg` argument), look it up in
`pkgMap`; when present the record is enabled iff `lvl` is at least the
package's resolved level, otherwise iff `lvl` is at least the resolved
global level `getLogLevel(opts.Config.LogLevel)`. -/
def enabledOp (st : HandlerState) (callerPkg : List Char) (lvl : Int) : Bool :=
  let globalLevel := getLogLevel (getConfig st).logLevel
  match loadKV st.pkgMap callerPkg with
  | some p => decide (p ≤ lvl)
  | none => decide (globalLevel ≤ lvl)

/-- `Handler.UseConfig` (handler.go): disable the file watcher, adopt
`cfg`, then run `initHandler`. -/
def useConfigOp (fs : FS) (cfg : Config) (st : HandlerState) : HandlerState :=
  initHandlerOp fs
    { st with opts := { st.opts with enableFileWatcher := false, config := some cfg } }

/-- `Handler.UseConfigFile` (handler.go): optionally rebind the config
file name (a nonempty single argument), fall back to the default file
name when none is bound, enable the watcher flag, then
`loadConfig().initHandler()`. -/
def useConfigFileOp (fs : FS) (cfgFile : Option (List Char)) (st : HandlerState) :
    HandlerState :=
  let opts1 :=
    match cfgFile with
    | some f => if f ≠ [] then { st.opts with configFile := some f } else st.opts
    | none => st.opts
  let opts2 :=
    if opts1.configFile = none then { opts1 with configFile := some defaultConfigFileTok }
    else opts1
  let opts3 := { opts2 with enableFileWatcher := true }
  initHandlerOp fs (loadConfigOp fs { st with opts := opts3 })

/-- The data `Handler.UseConfigTemporarily` produces: the immediately
visible state and the snapshot `(oldCfg, enableFileWatcher)` captured
for the one-shot revert goroutine. -/
structure TempResult where
  mid : HandlerState
  snapCfg : Config
  snapWatch : Bool
deriving DecidableEq, Repr

/-- `Handler.UseConfigTemporarily` (handler.go), immediate part:
snapshot `GetConfig()` and the watcher flag, disable the watcher,
adopt `cfg`, run `initHandler`. The revert goroutine is modelled by
`revertOp` applied once after the duration elapses. -/
def useConfigTemporarilyOp (fs : FS) (cfg : Config) (st : HandlerState) : TempResult :=
  { mid := initHandlerOp fs
      { st with opts := { st.opts with enableFileWatcher := false, config := some cfg } }
    snapCfg := getConfig st
    snapWatch := st.opts.enableFileWatcher }

/-- The body of the revert goroutine of `UseConfigTemporarily`: after
the timer fires, call `UseConfigFile()` when the snapshot had the
watcher enabled, else `UseConfig(oldCfg)`. -/
def revertOp (fs : FS) (r : TempResult) (st : HandlerState) : HandlerState :=
  if r.snapWatch then useConfigFileOp fs none st else useConfigOp fs r.snapCfg st

/-! ### Watcher events (initConfigFileWatcher, slogscope.go) -/

/-- The fsnotify events the watcher goroutine distinguishes. -/
inductive WatcherEvent
  | remove
  | rename
  | write
deriving DecidableEq, Repr

/-- One iteration of the watcher goroutine's event loop, guarded by the
watcher being live. On Remove or Rename it logs, closes the watcher
and returns — the in-memory configuration is untouched. On Write it
runs `loadConfig().initHandler()` (which re-arms a fresh watcher) and
the old single-shot subscription closes. When no watcher is live the
event is not observed at all. -/
def watcherStep (fs : FS) (st : HandlerState) (ev : WatcherEvent) : HandlerState :=
  if st.watcherArmed then
    match ev with
    | WatcherEvent.remove => { st with watcherArmed := false }
    | WatcherEvent.rename => { st with watcherArmed := false }
    | WatcherEvent.write => initHandlerOp fs (loadConfigOp fs st)
  else st

/-! ### Construction (NewHandler, handler.go) -/

/-- The `slog.Handler` argument of `NewHandler`, at the granularity the
type switch distinguishes: the nil interface, a `*Handler` (the engine
wrapped in itself), or any other handler. -/
inductive Wrapped
  | nilIface
  | scopeHandler
  | other (id : Nat)
deriving DecidableEq, Repr

/-- Panic message "slog.Handler must not be nil". -/
def nilHandlerMsg : Nat := 0

/-- Panic message "slog.Handler must not be of type *Handler". -/
def scopeHandlerMsg : Nat := 1

/-- `NewHandler` (handler.go): default the options, default the config
file name, fail fast (panic) on a nil or self-wrapping handler, then
`loadConfig` when no Config was supplied, and finally the deferred
`initHandler`. A panic is modelled as `Except.error` carrying the
message tag. -/
def newHandlerOp (fs : FS) (h : Wrapped) (opts : Option HandlerOpts) :
    Except Nat HandlerState :=
  let o := opts.getD ⟨false, none, none, false⟩
  let o :=
    if o.configFile = none then { o with configFile := some defaultConfigFileTok } else o
  match h with
  | Wrapped.nilIface => Except.error nilHandlerMsg
  | Wrapped.scopeHandler => Except.error scopeHandlerMsg
  | Wrapped.other _ =>
    let st0 : HandlerState := { opts := o, pkgMap := [], watcherArmed := false }
    let st1 := if o.config = none ∧ o.configFile ≠ none then loadConfigOp fs st0 else st0
    Except.ok (initHandlerOp fs st1)

/-- A file system with no files. -/
def fsEmpty : FS := fun _ => FileContent.absent

/-- The handler of the end-to-end scenario of C1: constructed with
`Config{LogLevel: "INFO"}` and no package overrides. -/
def mkInfoHandler : HandlerState :=
  match newHandlerOp fsEmpty (Wrapped.other 0)
      (some ⟨false, some ⟨infoTok, []⟩, none, false⟩) with
  | Except.ok st => st
  | Except.error _ => { opts := ⟨false, none, none, false⟩, pkgMap := [], watcherArmed := false }


/-! ### Slice-aliasing model for GetConfig (C9)

Go's `Config` holds `Packages []Package`: a slice. `GetConfig` returns
`*h.opts.Config`, a struct copy, which copies the slice *header* — the
backing array is shared between the returned value and the engine's
live Config. This refined model makes the backing array explicit: a
store of arrays addressed by id, with slice headers naming an array. -/

/-- A Go slice header for a `[]Package` (the backing array id; length
and capacity are irrelevant for element writes in range). -/
structure PkgSlice where
  arrId : Nat
deriving DecidableEq, Repr

/-- A `Config` value under the explicit-heap model: the string is a
value (Go strings are immutable), the package list a slice header. -/
structure ConfigRef where
  logLevel : List Char
  packages : PkgSlice
deriving DecidableEq, Repr

/-- The heap of `[]Package` backing arrays. -/
def Store := List (List GoPackage)

/-- Contents of a backing array. -/
def readArr (σ : Store) (a : Nat) : List GoPackage :=
  List.getD σ a []

/-- `cfg.Packages[i] = p`: an element write through a slice header. -/
def writeElem (σ : Store) (a i : Nat) (p : GoPackage) : Store :=
  List.set σ a ((readArr σ a).set i p)

/-- What a `Config` denotes once the slice is dereferenced — the value
`GetConfig`'s caller observes when reading the returned struct. -/
def derefConfig (σ : Store) (c : ConfigRef) : Config :=
  ⟨c.logLevel, readArr σ c.packages.arrId⟩

/-- The engine under the explicit-heap model: its current `ConfigRef`
and the `pkgMap` built by the last `initHandler` run. The `pkgMap`
entries are `*pkg` structs holding their own copies of each name and
the resolved level — not references into the backing array. -/
structure EngineRef where
  cfg : ConfigRef
  pkgMap : List (List Char × Int)
deriving DecidableEq, Repr

/-- The engine state produced by `initHandler` on config `c`: the
`pkgMap` is rebuilt from the array contents at that moment. -/
def initEngineRef (σ : Store) (c : ConfigRef) : EngineRef :=
  ⟨c, buildPkgMap (derefConfig σ c)⟩

/-- `GetConfig` under the heap model: a struct copy — the same
`ConfigRef` value, its slice header included. -/
def getConfigRef (e : EngineRef) : ConfigRef := e.cfg

/-- `Enabled` under the heap model. It reads the prebuilt `pkgMap` and
the `LogLevel` string of the current config; the store parameter
records that the code has access to the heap but `Enabled` never
dereferences the `Packages` slice. -/
def enabledRef (_ : Store) (e : EngineRef) (callerPkg : List Char) (lvl : Int) : Bool :=
  let globalLevel := getLogLevel e.cfg.logLevel
  match loadKV e.pkgMap callerPkg with
  | some p => decide (p ≤ lvl)
  | none => decide (globalLevel ≤ lvl)

/-! ### Predicates written from the spec's words (for refinement checks)

These two definitions follow the claims' own wording, not the source;
they exist to compare the spec's reading against the code's behaviour. -/

/-- From the spec's words: the token is parseable under the grammar
`<name>[(+|-)<digits>]` with a canonical name prefix (case-insensitively):
one of the four names starts the token, followed by nothing or by a
sign and a nonempty digit run (trailing garbage after a valid digit
run is not tolerated by the grammar as written). -/
def specParseableToken (t : List Char) : Bool :=
  [dbgTok, infoTok, warnTok, errTok].any (fun nm =>
    nm.isPrefixOf (t.map asciiUpper) &&
      (match (t.map asciiUpper).drop nm.length with
       | [] => true
       | s :: ds => (s == '+' || s == '-') && !ds.isEmpty && ds.all isAsciiDigit))

/-- From the spec's words, weakened to a bare prefix check: the token
begins (case-insensitively) with one of the four canonical names. -/
def hasCanonicalNamePrefix (t : List Char) : Bool :=
  [dbgTok, infoTok, warnTok, errTok].any (fun nm => nm.isPrefixOf (t.map asciiUpper))

/-- The code-side condition under which `getLogLevel` falls back to the
default: the leftmost letter run of the uppercased token (when one
exists) is not a canonical name. -/
def noCanonicalRun (t : List Char) : Bool :=
  match findLevelMatch (t.map asciiUpper) with
  | none => true
  | some m => (levelBase m.name).isNone

/-! ### Concrete instances used in scenarios and witnesses -/

/-- The decimal digits of `2^63 = 9223372036854775808`, the smallest
natural number that does not fit in Go's 64-bit `int`. -/
def bigDigits : List Char :=
  ['9', '2', '2', '3', '3', '7', '2', '0', '3', '6', '8', '5', '4', '7', '7', '5', '8', '0', '8']

/-- The package name "mod.a" of the override-precedence scenario. -/
def modATok : List Char := ['m', 'o', 'd', '.', 'a']

/-- A config with default INFO and an ERROR override for "mod.a". -/
def pkgACfg : Config := ⟨infoTok, [⟨modATok, errTok⟩]⟩

/-- A fallback state for impossible `match` arms on closed terms. -/
def dummyState : HandlerState :=
  { opts := ⟨false, none, none, false⟩, pkgMap := [], watcherArmed := false }

/-- A handler constructed with `Config{LogLevel: "INFO"}` plus the
"mod.a"/ERROR override. -/
def pkgAState : HandlerState :=
  match newHandlerOp fsEmpty (Wrapped.other 0) (some ⟨false, some pkgACfg, none, false⟩) with
  | Except.ok st => st
  | Except.error _ => dummyState

/-- A handler constructed with `Config{LogLevel: "DEBUG"}`. -/
def mkDbgState : HandlerState :=
  match newHandlerOp fsEmpty (Wrapped.other 0)
      (some ⟨false, some ⟨dbgTok, []⟩, none, false⟩) with
  | Except.ok st => st
  | Except.error _ => dummyState

/-- A file system holding one good config file at the default path. -/
def fsOne : FS := fun f =>
  if f = defaultConfigFileTok then FileContent.ok ⟨dbgTok, []⟩ else FileContent.absent

/-- A handler constructed file-backed with the watcher enabled, over
`fsOne`: its watcher is armed. -/
def mkWatchedState : HandlerState :=
  match newHandlerOp fsOne (Wrapped.other 0) (some ⟨false, none, none, true⟩) with
  | Except.ok st => st
  | Except.error _ => dummyState

/-! ### Helper lemmas: list runs and character classes -/

theorem takeWhile_eq_self_of_all {p : Char → Bool} :
    ∀ l : List Char, l.all p = true → l.takeWhile p = l := by
  intro l h
  induction l with
  | nil => rfl
  | cons c cs ih =>
    simp only [List.all_cons, Bool.and_eq_true] at h
    simp [List.takeWhile_cons_of_pos h.1, ih h.2]

theorem dropWhile_eq_nil_of_all {p : Char → Bool} :
    ∀ l : List Char, l.all p = true → l.dropWhile p = [] := by
  intro l h
  induction l with
  | nil => rfl
  | cons c cs ih =>
    simp only [List.all_cons, Bool.and_eq_true] at h
    simp [List.dropWhile_cons_of_pos h.1, ih h.2]

theorem takeWhile_append_stop {p : Char → Bool} (l1 l2 : List Char) (b : Char)
    (h1 : l1.all p = true) (hb : p b = false) :
    (l1 ++ b :: l2).takeWhile p = l1 ∧ (l1 ++ b :: l2).dropWhile p = b :: l2 := by
  induction l1 with
  | nil =>
    have hb' : ¬ p b = true := by simp [hb]
    simp [List.takeWhile_cons_of_neg hb', List.dropWhile_cons_of_neg hb']
  | cons c cs ih =>
    simp only [List.all_cons, Bool.and_eq_true] at h1
    have := ih h1.2
    simp [List.takeWhile_cons_of_pos h1.1, List.dropWhile_cons_of_pos h1.1, this.1, this.2]

theorem asciiUpper_of_digit (c : Char) (h : isAsciiDigit c = true) :
    asciiUpper c = c := by
  simp only [isAsciiDigit, decide_eq_true_eq] at h
  simp only [asciiUpper, isLowerAlpha, decide_eq_true_eq]
  rw [if_neg]
  omega

theorem map_asciiUpper_digits (ds : List Char) (h : ds.all isAsciiDigit = true) :
    ds.map asciiUpper = ds := by
  induction ds with
  | nil => rfl
  | cons c cs ih =>
    simp only [List.all_cons, Bool.and_eq_true] at h
    simp [asciiUpper_of_digit c h.1, ih h.2]

theorem letter_not_digit_sign (s : Char) (hs : s = '+' ∨ s = '-') :
    isAsciiLetter s = false ∧ asciiUpper s = s := by
  rcases hs with h | h <;> subst h <;> exact ⟨by decide, by decide⟩

/-- The digit run of a nonempty all-digit tail is the tail itself. -/
theorem takeWhile_digits_self (ds : List Char) (h : ds.all isAsciiDigit = true) :
    ds.takeWhile isAsciiDigit = ds :=
  takeWhile_eq_self_of_all ds h

/-! ### Helper lemmas: computing findLevelMatch and getLogLevel -/

/-- An input that is exactly a letter run matches with no sign group. -/
theorem findLevelMatch_name (c0 : Char) (cs : List Char)
    (hc0 : isAsciiLetter c0 = true) (hcs : cs.all isAsciiLetter = true) :
    findLevelMatch (c0 :: cs) = some ⟨c0 :: cs, none, []⟩ := by
  unfold findLevelMatch
  rw [if_pos hc0]
  rw [takeWhile_eq_self_of_all cs hcs, dropWhile_eq_nil_of_all cs hcs]

/-- A letter run followed by a sign and a nonempty digit run matches
with all three groups captured. -/
theorem findLevelMatch_signed (c0 : Char) (cs ds : List Char) (s : Char)
    (hc0 : isAsciiLetter c0 = true) (hcs : cs.all isAsciiLetter = true)
    (hs : s = '+' ∨ s = '-') (hds : ds ≠ []) (hd : ds.all isAsciiDigit = true) :
    findLevelMatch ((c0 :: cs) ++ s :: ds) = some ⟨c0 :: cs, some s, ds⟩ := by
  have hsl : isAsciiLetter s = false := (letter_not_digit_sign s hs).1
  have hsplit := takeWhile_append_stop cs ds s hcs hsl
  have htw : ds.takeWhile isAsciiDigit = ds := takeWhile_digits_self ds hd
  have hcond : (s == '+' || s == '-') = true := by
    rcases hs with h | h <;> subst h <;> decide
  have hne : (ds.takeWhile isAsciiDigit).isEmpty = false := by
    rw [htw]
    cases ds with
    | nil => exact absurd rfl hds
    | cons d dt => rfl
  simp only [List.cons_append]
  unfold findLevelMatch
  simp only [hc0, if_true, hsplit.1, hsplit.2, htw, hcond, hne]
  simp [hds]

/-- Uppercasing is the identity on a token made of a canonical name, a
sign, and digits. -/
theorem map_asciiUpper_token (nameTok ds : List Char) (s : Char)
    (hup : nameTok.map asciiUpper = nameTok)
    (hs : s = '+' ∨ s = '-') (hd : ds.all isAsciiDigit = true) :
    (nameTok ++ s :: ds).map asciiUpper = nameTok ++ s :: ds := by
  rw [List.map_append, List.map_cons, hup, (letter_not_digit_sign s hs).2,
    map_asciiUpper_digits ds hd]

/-- A name with an entry in `levelMap` is one of the four canonical
tokens, with the corresponding base severity. -/
theorem levelBase_cases (nameTok : List Char) (base : Int)
    (h : levelBase nameTok = some base) :
    (nameTok = dbgTok ∧ base = -4) ∨ (nameTok = infoTok ∧ base = 0) ∨
    (nameTok = warnTok ∧ base = 4) ∨ (nameTok = errTok ∧ base = 8) := by
  unfold levelBase at h
  split_ifs at h with h1 h2 h3 h4 <;> simp_all

/-- Canonical names are nonempty uppercase letter runs fixed by
`asciiUpper`. -/
theorem canonical_name_shape (nameTok : List Char) (base : Int)
    (h : levelBase nameTok = some base) :
    nameTok.map asciiUpper = nameTok ∧
    ∃ c0 cs, nameTok = c0 :: cs ∧ isAsciiLetter c0 = true ∧
      cs.all isAsciiLetter = true := by
  rcases levelBase_cases nameTok base h with ⟨h1, _⟩ | ⟨h1, _⟩ | ⟨h1, _⟩ | ⟨h1, _⟩ <;>
    subst h1 <;>
    refine ⟨by decide, ?_⟩
  · exact ⟨'D', ['E', 'B', 'U', 'G'], rfl, by decide, by decide⟩
  · exact ⟨'I', ['N', 'F', 'O'], rfl, by decide, by decide⟩
  · exact ⟨'W', ['A', 'R', 'N'], rfl, by decide, by decide⟩
  · exact ⟨'E', ['R', 'R', 'O', 'R'], rfl, by decide, by decide⟩

/-- `getLogLevel` on a bare canonical name returns its base severity
exactly. -/
theorem getLogLevel_name (nameTok : List Char) (base : Int)
    (hname : levelBase nameTok = some base) :
    getLogLevel nameTok = base := by
  obtain ⟨hup, c0, cs, hshape, hc0, hcs⟩ := canonical_name_shape nameTok base hname
  unfold getLogLevel
  rw [hup]
  dsimp only
  rw [hshape, findLevelMatch_name c0 cs hc0 hcs]
  rw [← hshape]
  dsimp only
  rw [hname]

/-- `getLogLevel` on `NAME<sign><digits>`: the base severity offset by
the `strconv.Atoi` result, in wrapping 64-bit arithmetic. -/
theorem getLogLevel_signed (nameTok : List Char) (base : Int) (s : Char) (ds : List Char)
    (hname : levelBase nameTok = some base)
    (hs : s = '+' ∨ s = '-') (hds : ds ≠ []) (hd : ds.all isAsciiDigit = true) :
    getLogLevel (nameTok ++ s :: ds) =
      if s = '-' then wrap64 (base - goAtoi ds) else wrap64 (base + goAtoi ds) := by
  obtain ⟨hup, c0, cs, hshape, hc0, hcs⟩ := canonical_name_shape nameTok base hname
  unfold getLogLevel
  rw [map_asciiUpper_token nameTok ds s hup hs hd]
  dsimp only
  rw [hshape, findLevelMatch_signed c0 cs ds s hc0 hcs hs hds hd]
  rw [← hshape]
  dsimp only
  rw [hname]

/-- 64-bit wrap-around is the identity on the representable range. -/
theorem wrap64_eq_self (x : Int) (h1 : -(2 ^ 63) ≤ x) (h2 : x < 2 ^ 63) :
    wrap64 x = x := by
  unfold wrap64
  omega

/-- `strconv.Atoi` is exact below the saturation threshold. -/
theorem goAtoi_eq_of_le (ds : List Char) (h : (digitsVal ds : Int) ≤ maxInt) :
    goAtoi ds = (digitsVal ds : Int) := by
  unfold goAtoi
  rw [if_pos h]

/-- `strconv.Atoi` saturates above the threshold. -/
theorem goAtoi_eq_max_of_gt (ds : List Char) (h : maxInt < (digitsVal ds : Int)) :
    goAtoi ds = maxInt := by
  unfold goAtoi
  rw [if_neg (by omega)]

/-! ### Sanity checks against the table of TestHandler_GetLogLevel -/

example : getLogLevel dbgTok = -4 := by decide
example : getLogLevel infoTok = 0 := by decide
example : getLogLevel warnTok = 4 := by decide
example : getLogLevel errTok = 8 := by decide
example : getLogLevel (errTok ++ ['+', '1']) = 9 := by decide
example : getLogLevel (errTok ++ ['-', '1']) = 7 := by decide
example : getLogLevel (dbgTok ++ ['+', '4']) = 0 := by decide
example : getLogLevel (dbgTok ++ ['+', '8']) = 4 := by decide
example : getLogLevel (dbgTok ++ ['+', '1', '2']) = 8 := by decide
example : getLogLevel (dbgTok ++ ['+', '1', '0', '0']) = 96 := by decide
example : getLogLevel ['e', 'r', 'r', 'o', 'r', '-', '1', '0', '0'] = -92 := by decide
example : getLogLevel ['i', 'n', 'F', 'o', '-', '1', '0'] = -10 := by decide
example : getLogLevel ['X', 'J', 'D', 'H', 'F', 'I', 'W', '+', '2', '3', '4'] = 0 := by decide
example : getConfig mkInfoHandler = ⟨infoTok, []⟩ := by decide
example : enabledOp mkInfoHandler ['a'] (-4) = false := by decide
example : enabledOp mkInfoHandler ['a'] 0 = true := by decide
example : enabledOp mkInfoHandler ['a'] 8 = true := by decide
example : mkWatchedState.watcherArmed = true := by decide
example : getConfig mkWatchedState = ⟨dbgTok, []⟩ := by decide

/-! ### Helper lemmas: watcher steps and the heap model -/

theorem watcherStep_not_armed (fs : FS) (st : HandlerState) (ev : WatcherEvent)
    (h : st.watcherArmed = false) : watcherStep fs st ev = st := by
  simp [watcherStep, h]

theorem foldl_watcherStep_not_armed (fs : FS) (st : HandlerState)
    (h : st.watcherArmed = false) :
    ∀ evs : List WatcherEvent, evs.foldl (watcherStep fs) st = st := by
  intro evs
  induction evs with
  | nil => rfl
  | cons e es ih => rw [List.foldl_cons, watcherStep_not_armed fs st e h]; exact ih

theorem readArr_writeElem (σ : Store) (a i : Nat) (p : GoPackage) :
    readArr (writeElem σ a i p) a = (readArr σ a).set i p := by
  induction σ generalizing a with
  | nil => cases a <;> simp [readArr, writeElem, List.set]
  | cons x xs ih =>
    cases a with
    | zero => simp [readArr, writeElem, List.set]
    | succ a' =>
      simpa [readArr, writeElem, List.set] using ih a'

/-! ### Claim C3 -/

/-- C3 counterexample: the token "1DEBUG" has no recognized canonical
name prefix (it is unparseable under the grammar
`<name>[(+|-)<digits>]`, under both the full-grammar and the bare
prefix reading), yet `getLogLevel` returns the DEBUG severity -4, not
the default INFO severity 0: the regexp search is unanchored, so the
letter run "DEBUG" is found at offset 1. -/
theorem getLogLevel_fallback_cex :
    specParseableToken ['1', 'D', 'E', 'B', 'U', 'G'] = false
    ∧ hasCanonicalNamePrefix ['1', 'D', 'E', 'B', 'U', 'G'] = false
    ∧ getLogLevel ['1', 'D', 'E', 'B', 'U', 'G'] = -4
    ∧ ((-4 : Int) ≠ 0) := by decide

/-- C3 (amended): for every token whose uppercased form's leftmost
maximal ASCII-letter run is not one of the canonical names DEBUG,
INFO, WARN, ERROR — in particular every token containing no ASCII
letter at all — `getLogLevel` returns the severity of the default
level INFO (0). The silent fallback never surfaces an error. -/
theorem getLogLevel_fallback (t : List Char) (h : noCanonicalRun t = true) :
    getLogLevel t = 0 := by
  unfold noCanonicalRun at h
  unfold getLogLevel
  dsimp only
  cases hm : findLevelMatch (t.map asciiUpper) with
  | none => rfl
  | some m =>
    rw [hm] at h
    dsimp only at h
    rw [Option.isNone_iff_eq_none] at h
    dsimp only
    rw [h]

/-- C3 witness: the all-garbage token "+234" (no letters) falls back
to 0. -/
theorem getLogLevel_fallback_w : getLogLevel ['+', '2', '3', '4'] = 0 :=
  getLogLevel_fallback ['+', '2', '3', '4'] (by decide)

/-! ### Claim C4 -/

/-- C4 counterexample: at k = 2^63 (token "DEBUG+9223372036854775808"),
the claimed identity getLogLevel(NAME+k) = base + k fails: strconv.Atoi
saturates at 2^63 - 1 with an ignored range error, so the code returns
-4 + (2^63 - 1) = 9223372036854775803, while base + k would be
-4 + 2^63 = 9223372036854775804. -/
theorem getLogLevel_offset_cex :
    digitsVal bigDigits = 9223372036854775808
    ∧ getLogLevel (dbgTok ++ '+' :: bigDigits) = 9223372036854775803
    ∧ ((9223372036854775803 : Int) ≠ -4 + 9223372036854775808) := by decide

/-- C4 (amended): for every canonical name and every digit string of
value v small enough that neither the Atoi conversion nor the final
64-bit addition overflows (v ≤ 2^63 - 9 suffices for all four bases):
getLogLevel(NAME+digits) = base + v and getLogLevel(NAME-digits) =
base - v, hence the result is strictly increasing in v for '+' and
strictly decreasing for '-'; getLogLevel(NAME) is the base exactly,
and getLogLevel(NAME) < getLogLevel(NAME+1). -/
theorem getLogLevel_offset_arith (nameTok : List Char) (base : Int) (ds es : List Char)
    (hname : levelBase nameTok = some base)
    (hds : ds ≠ []) (hd : ds.all isAsciiDigit = true)
    (hv : (digitsVal ds : Int) ≤ 2 ^ 63 - 9)
    (hes : es ≠ []) (he : es.all isAsciiDigit = true)
    (hw : (digitsVal es : Int) ≤ 2 ^ 63 - 9) :
    getLogLevel (nameTok ++ '+' :: ds) = base + digitsVal ds
    ∧ getLogLevel (nameTok ++ '-' :: ds) = base - digitsVal ds
    ∧ ((digitsVal ds : Int) < digitsVal es →
        getLogLevel (nameTok ++ '+' :: ds) < getLogLevel (nameTok ++ '+' :: es)
        ∧ getLogLevel (nameTok ++ '-' :: es) < getLogLevel (nameTok ++ '-' :: ds))
    ∧ getLogLevel nameTok = base
    ∧ getLogLevel nameTok < getLogLevel (nameTok ++ ['+', '1']) := by
  have hbase : base = -4 ∨ base = 0 ∨ base = 4 ∨ base = 8 := by
    rcases levelBase_cases nameTok base hname with ⟨_, hb⟩ | ⟨_, hb⟩ | ⟨_, hb⟩ | ⟨_, hb⟩ <;>
      simp [hb]
  have hplus : ∀ fs : List Char, fs ≠ [] → fs.all isAsciiDigit = true →
      (digitsVal fs : Int) ≤ 2 ^ 63 - 9 →
      getLogLevel (nameTok ++ '+' :: fs) = base + digitsVal fs := by
    intro fs h1 h2 h3
    rw [getLogLevel_signed nameTok base '+' fs hname (Or.inl rfl) h1 h2]
    rw [if_neg (by decide), goAtoi_eq_of_le fs (by unfold maxInt; omega)]
    have h0 : (0 : Int) ≤ (digitsVal fs : Int) := Int.natCast_nonneg _
    exact wrap64_eq_self _ (by omega) (by omega)
  have hminus : ∀ fs : List Char, fs ≠ [] → fs.all isAsciiDigit = true →
      (digitsVal fs : Int) ≤ 2 ^ 63 - 9 →
      getLogLevel (nameTok ++ '-' :: fs) = base - digitsVal fs := by
    intro fs h1 h2 h3
    rw [getLogLevel_signed nameTok base '-' fs hname (Or.inr rfl) h1 h2]
    rw [if_pos rfl, goAtoi_eq_of_le fs (by unfold maxInt; omega)]
    have h0 : (0 : Int) ≤ (digitsVal fs : Int) := Int.natCast_nonneg _
    exact wrap64_eq_self _ (by omega) (by omega)
  refine ⟨hplus ds hds hd hv, hminus ds hds hd hv, ?_, getLogLevel_name nameTok base hname, ?_⟩
  · intro hlt
    rw [hplus ds hds hd hv, hplus es hes he hw, hminus ds hds hd hv, hminus es hes he hw]
    omega
  · rw [getLogLevel_name nameTok base hname]
    have h1 : getLogLevel (nameTok ++ '+' :: ['1']) = base + digitsVal ['1'] :=
      hplus ['1'] (by decide) (by decide) (by decide)
    have h2 : digitsVal ['1'] = 1 := by decide
    rw [h2] at h1
    show base < getLogLevel (nameTok ++ '+' :: ['1'])
    rw [h1]
    omega

/-- C4 witness: ERROR+1 = 9 > 8 = ERROR, using the amended theorem at
the concrete digit strings "1" and "2". -/
theorem getLogLevel_offset_arith_w :
    getLogLevel (errTok ++ '+' :: ['1']) = 8 + digitsVal ['1'] :=
  (getLogLevel_offset_arith errTok 8 ['1'] ['2'] (by decide) (by decide) (by decide)
    (by decide) (by decide) (by decide) (by decide)).1

/-! ### Claim C10 -/

/-- C10 counterexample: for the token "INFO+9223372036854775808"
(digits exceeding the int range), strconv.Atoi fails with a range
error that getLogLevel silently ignores — but Atoi returns the
saturated maximum 2^63 - 1 alongside the error, so the result is
0 + (2^63 - 1) = 9223372036854775807, not the canonical base severity
offset by 0 (which would be 0). -/
theorem getLogLevel_atoi_overflow_cex :
    maxInt < (digitsVal bigDigits : Int)
    ∧ getLogLevel (infoTok ++ '+' :: bigDigits) = 9223372036854775807
    ∧ ((9223372036854775807 : Int) ≠ 0) := by decide

/-- C10 (amended): for every token NAME+digits or NAME-digits whose
digit value does not fit in the 64-bit int type, getLogLevel silently
ignores the Atoi conversion error and uses the value Atoi returns
alongside the error — the saturated maximum 2^63 - 1 — so the result
is the canonical base severity plus (for '+') or minus (for '-')
2^63 - 1, wrapped by the 64-bit addition; it neither fails nor applies
an offset of 0. -/
theorem getLogLevel_atoi_saturates (nameTok : List Char) (base : Int) (ds : List Char)
    (hname : levelBase nameTok = some base)
    (hds : ds ≠ []) (hd : ds.all isAsciiDigit = true)
    (hbig : maxInt < (digitsVal ds : Int)) :
    getLogLevel (nameTok ++ '+' :: ds) = wrap64 (base + maxInt)
    ∧ getLogLevel (nameTok ++ '-' :: ds) = wrap64 (base - maxInt) := by
  have h1 := getLogLevel_signed nameTok base '+' ds hname (Or.inl rfl) hds hd
  have h2 := getLogLevel_signed nameTok base '-' ds hname (Or.inr rfl) hds hd
  rw [goAtoi_eq_max_of_gt ds hbig] at h1 h2
  rw [if_neg (by decide)] at h1
  rw [if_pos rfl] at h2
  exact ⟨h1, h2⟩

/-- C10 witness: WARN-9223372036854775808 evaluates to
4 - (2^63 - 1) = -9223372036854775803, via the amended theorem. -/
theorem getLogLevel_atoi_saturates_w :
    getLogLevel (warnTok ++ '-' :: bigDigits) = wrap64 (4 - maxInt) :=
  (getLogLevel_atoi_saturates warnTok 4 bigDigits (by decide) (by decide) (by decide)
    (by decide)).2

/-! ### Claim C1 -/

/-- C1: Enabled(lvl) is true iff — when the resolved caller's package
name is present in the package map — lvl is at least that package's
resolved severity, and otherwise iff lvl is at least the resolved
severity of Config.LogLevel; and for a handler constructed with
Config{LogLevel: "INFO"} and no package overrides, Enabled(DEBUG) is
false while Enabled(INFO) and Enabled(ERROR) are true. -/
theorem enabled_two_tier (st : HandlerState) (caller : List Char) (lvl : Int) :
    (∀ s, loadKV st.pkgMap caller = some s → (enabledOp st caller lvl = true ↔ s ≤ lvl))
    ∧ (loadKV st.pkgMap caller = none →
        (enabledOp st caller lvl = true ↔ getLogLevel (getConfig st).logLevel ≤ lvl))
    ∧ (enabledOp mkInfoHandler caller (-4) = false
        ∧ enabledOp mkInfoHandler caller 0 = true
        ∧ enabledOp mkInfoHandler caller 8 = true) := by
  have hmap : mkInfoHandler.pkgMap = [] := by decide
  have hcfg : getConfig mkInfoHandler = ⟨infoTok, []⟩ := by decide
  have hinfo : getLogLevel infoTok = 0 := by decide
  refine ⟨?_, ?_, ?_, ?_, ?_⟩
  · intro s hs
    simp [enabledOp, hs]
  · intro hnone
    simp [enabledOp, hnone]
  · simp [enabledOp, hmap, hcfg, hinfo, loadKV]
  · simp [enabledOp, hmap, hcfg, hinfo, loadKV]
  · simp [enabledOp, hmap, hcfg, hinfo, loadKV]

/-- C1 witness: in the handler built with the "mod.a" → ERROR override
over an INFO default, a call attributed to "mod.a" at severity 8 is
enabled, via the package branch of the theorem. -/
theorem enabled_two_tier_w : enabledOp pkgAState modATok 8 = true :=
  ((enabled_two_tier pkgAState modATok 8).1 8 (by decide)).mpr (by decide)

/-! ### Claim C5 -/

/-- C5: when the configuration is loaded from a file — at construction
(no Config supplied) or via UseConfigFile — and the file is absent,
unreadable, or fails YAML decoding, the operation ends with the
default Configuration {LogLevel: "INFO", Packages: empty}: GetConfig
afterwards returns that default. The operations are total (the
failure is degraded, never surfaced as an error or panic). -/
theorem loadFailure_default_config (fs : FS) (n : Nat) (opts : HandlerOpts)
    (f : List Char) (st : HandlerState)
    (hc : opts.config = none) (hcf : opts.configFile = some f)
    (hfs : fs f = FileContent.absent ∨ fs f = FileContent.unreadable
      ∨ fs f = FileContent.badYaml)
    (hst : st.opts.configFile = some f) :
    (newHandlerOp fs (Wrapped.other n) (some opts)).map getConfig
      = Except.ok defaultConfig
    ∧ getConfig (useConfigFileOp fs none st) = defaultConfig := by
  have hload : ∀ st' : HandlerState, st'.opts.configFile = some f →
      (loadConfigOp fs st').opts.config = none := by
    intro st' h'
    rcases hfs with h | h | h <;> simp [loadConfigOp, h', h]
  constructor
  · have h1 : (if opts.configFile = none then
        { opts with configFile := some defaultConfigFileTok } else opts) = opts := by
      rw [if_neg (by rw [hcf]; exact fun h => Option.noConfusion h)]
    simp only [newHandlerOp, Option.getD_some, h1]
    rw [if_pos ⟨hc, by rw [hcf]; exact fun h => Option.noConfusion h⟩]
    have h2 := hload { opts := opts, pkgMap := [], watcherArmed := false } hcf
    simp only [Except.map]
    simp [initHandlerOp, getConfig, h2]
  · have h3 : (loadConfigOp fs
        { st with opts := { st.opts with enableFileWatcher := true } }).opts.config
        = none := hload _ (by simpa using hst)
    have h4 : st.opts.configFile ≠ none := by rw [hst]; exact fun h => Option.noConfusion h
    simp only [useConfigFileOp, if_neg h4]
    simp [initHandlerOp, getConfig, h3]

/-- C5 witness: constructing over an empty file system with the
default config file bound, and re-running UseConfigFile on the INFO
handler, both end in the default Configuration. -/
theorem loadFailure_default_config_w :
    (newHandlerOp fsEmpty (Wrapped.other 0)
        (some ⟨false, none, some defaultConfigFileTok, false⟩)).map getConfig
      = Except.ok defaultConfig :=
  (loadFailure_default_config fsEmpty 0 ⟨false, none, some defaultConfigFileTok, false⟩
    defaultConfigFileTok mkInfoHandler rfl rfl (Or.inl rfl) (by decide)).1

/-! ### Claim C6 -/

/-- C6: at construction, a non-nil HandlerOptions.Config is adopted
verbatim and the config file is never read — the resulting
configuration is the supplied one for every file system, even when
ConfigFile is also set. -/
theorem config_precedence (fs : FS) (n : Nat) (opts : HandlerOpts) (cfg : Config)
    (hc : opts.config = some cfg) :
    (newHandlerOp fs (Wrapped.other n) (some opts)).map getConfig = Except.ok cfg := by
  by_cases hcf : opts.configFile = none <;>
    simp [newHandlerOp, hcf, hc, initHandlerOp, getConfig, Except.map]

/-- C6 witness: a handler built with Config{LogLevel: "DEBUG"} and the
default config file also bound (over a file system where that file
exists with different contents) reports exactly the supplied config. -/
theorem config_precedence_w :
    (newHandlerOp fsOne (Wrapped.other 0)
        (some ⟨false, some ⟨errTok, []⟩, some defaultConfigFileTok, false⟩)).map getConfig
      = Except.ok ⟨errTok, []⟩ :=
  config_precedence fsOne 0 ⟨false, some ⟨errTok, []⟩, some defaultConfigFileTok, false⟩
    ⟨errTok, []⟩ rfl

/-! ### Claim C7 -/

/-- C7: NewHandler fails fast (panics) in exactly two cases — a nil
wrapped slog.Handler and a wrapped handler of type *Handler; for
every other non-nil handler, construction succeeds without panicking,
for every file system and every options value. -/
theorem newHandler_failfast (fs : FS) (h : Wrapped) (opts : Option HandlerOpts) :
    (∃ e, newHandlerOp fs h opts = Except.error e) ↔
      h = Wrapped.nilIface ∨ h = Wrapped.scopeHandler := by
  cases h with
  | nilIface => simp [newHandlerOp]
  | scopeHandler => simp [newHandlerOp]
  | other id => simp [newHandlerOp]

/-! ### Claim C2 -/

/-- C2: UseConfigTemporarily immediately applies cfg (GetConfig
returns cfg; the watcher flag is cleared and no watcher is armed for
the override window) after snapshotting the previous configuration
and watcher flag; the one-shot revert action - run exactly once, when
the duration elapses - re-reads the config file and re-arms the
watcher (UseConfigFile) when the watcher was enabled before the call,
and otherwise re-applies the snapshotted Config (UseConfig), whose
GetConfig is then the pre-override configuration again. In the
DEBUG-base / ERROR-override scenario, DEBUG-severity calls are
rejected during the window and accepted again after the revert, with
no further intervention. Time is abstracted to the order of events:
the revert action is exactly the computation the timer goroutine runs
after the duration elapses. -/
theorem useConfigTemporarily_spec (fs fs2 : FS) (st : HandlerState) (cfg base : Config)
    (hbase : st.opts.config = some base) :
    (getConfig (useConfigTemporarilyOp fs cfg st).mid = cfg)
    ∧ ((useConfigTemporarilyOp fs cfg st).mid.opts.enableFileWatcher = false)
    ∧ ((useConfigTemporarilyOp fs cfg st).mid.watcherArmed = false)
    ∧ ((useConfigTemporarilyOp fs cfg st).snapCfg = base)
    ∧ ((useConfigTemporarilyOp fs cfg st).snapWatch = st.opts.enableFileWatcher)
    ∧ (st.opts.enableFileWatcher = false → ∀ st2,
        revertOp fs2 (useConfigTemporarilyOp fs cfg st) st2 = useConfigOp fs2 base st2
        ∧ getConfig (revertOp fs2 (useConfigTemporarilyOp fs cfg st) st2) = base)
    ∧ (st.opts.enableFileWatcher = true → ∀ st2,
        revertOp fs2 (useConfigTemporarilyOp fs cfg st) st2 = useConfigFileOp fs2 none st2)
    ∧ (base = ⟨dbgTok, []⟩ → cfg = ⟨errTok, []⟩ → st.opts.enableFileWatcher = false →
        ∀ caller,
          enabledOp (useConfigTemporarilyOp fs cfg st).mid caller (-4) = false
          ∧ enabledOp (revertOp fs2 (useConfigTemporarilyOp fs cfg st)
              (useConfigTemporarilyOp fs cfg st).mid) caller (-4) = true) := by
  have herr : getLogLevel errTok = 8 := by decide
  have hdbg : getLogLevel dbgTok = -4 := by decide
  refine ⟨?_, ?_, ?_, ?_, ?_, ?_, ?_, ?_⟩
  · simp [useConfigTemporarilyOp, initHandlerOp, getConfig]
  · simp [useConfigTemporarilyOp, initHandlerOp]
  · simp [useConfigTemporarilyOp, initHandlerOp]
  · simp [useConfigTemporarilyOp, getConfig, hbase]
  · simp [useConfigTemporarilyOp]
  · intro hw st2
    constructor
    · simp [revertOp, useConfigTemporarilyOp, hw, getConfig, hbase]
    · simp [revertOp, useConfigTemporarilyOp, hw, useConfigOp, initHandlerOp, getConfig,
        hbase]
  · intro hw st2
    simp [revertOp, useConfigTemporarilyOp, hw]
  · intro hb hcfg hw caller
    subst hb
    subst hcfg
    constructor
    · simp [useConfigTemporarilyOp, initHandlerOp, getConfig, enabledOp, buildPkgMap,
        loadKV, herr]
    · simp [revertOp, useConfigTemporarilyOp, hw, getConfig, hbase, useConfigOp,
        initHandlerOp, enabledOp, buildPkgMap, loadKV, hdbg]

/-- C2 witness: over the DEBUG-base handler, the ERROR override is
immediately visible via GetConfig, through the theorem at concrete
inputs. -/
theorem useConfigTemporarily_spec_w :
    getConfig (useConfigTemporarilyOp fsEmpty ⟨errTok, []⟩ mkDbgState).mid
      = ⟨errTok, []⟩ :=
  (useConfigTemporarily_spec fsEmpty fsEmpty mkDbgState ⟨errTok, []⟩ ⟨dbgTok, []⟩
    (by decide)).1

/-! ### Claim C8 -/

/-- C8: when a rename or delete event for the watched config file is
processed, the watcher shuts itself down without reloading: the
in-memory configuration is untouched, GetConfig afterwards returns
the same last good Configuration as before the event, and it keeps
doing so across any further watcher events (the dead watcher observes
none of them) until some other operation re-arms or replaces the
state. -/
theorem watcher_vanish_keeps_config (fs : FS) (st : HandlerState) (ev : WatcherEvent)
    (hev : ev = WatcherEvent.remove ∨ ev = WatcherEvent.rename) :
    (watcherStep fs st ev).opts.config = st.opts.config
    ∧ getConfig (watcherStep fs st ev) = getConfig st
    ∧ (watcherStep fs st ev).watcherArmed = false
    ∧ ∀ evs : List WatcherEvent,
        getConfig (evs.foldl (watcherStep fs) (watcherStep fs st ev)) = getConfig st := by
  have hstep : (watcherStep fs st ev).opts = st.opts
      ∧ (watcherStep fs st ev).watcherArmed = false := by
    rcases hev with h | h <;> subst h <;>
      by_cases harm : st.watcherArmed <;> simp [watcherStep, harm]
  refine ⟨by rw [hstep.1], by simp [getConfig, hstep.1], hstep.2, ?_⟩
  intro evs
  rw [foldl_watcherStep_not_armed fs _ hstep.2 evs]
  simp [getConfig, hstep.1]

/-- C8 witness: on the armed file-backed handler, a rename event
leaves GetConfig at the last good configuration, via the theorem at
concrete inputs. -/
theorem watcher_vanish_keeps_config_w :
    getConfig (watcherStep fsOne mkWatchedState WatcherEvent.rename)
      = getConfig mkWatchedState :=
  (watcher_vanish_keeps_config fsOne mkWatchedState WatcherEvent.rename
    (Or.inr rfl)).2.1

/-! ### Claim C9 -/

/-- C9 counterexample: GetConfig returns `*h.opts.Config`, a struct
copy whose Packages slice header still names the engine's backing
array. Writing an element through the returned copy's Packages slice
(here: flipping the "mod.a" override from ERROR to DEBUG) changes the
backing array, so a later GetConfig — dereferencing the engine's own
unchanged ConfigRef — observes the mutation: the returned value is a
shallow copy, not an immutable snapshot. -/
theorem getConfig_snapshot_cex :
    (derefConfig
        (writeElem [[⟨modATok, errTok⟩]]
          (getConfigRef (initEngineRef [[⟨modATok, errTok⟩]] ⟨infoTok, ⟨0⟩⟩)).packages.arrId
          0 ⟨modATok, dbgTok⟩)
        (initEngineRef [[⟨modATok, errTok⟩]] ⟨infoTok, ⟨0⟩⟩).cfg)
      ≠ derefConfig [[⟨modATok, errTok⟩]]
          (initEngineRef [[⟨modATok, errTok⟩]] ⟨infoTok, ⟨0⟩⟩).cfg := by decide

/-- C9 (amended): GetConfig returns a shallow copy of the current
Configuration. The engine's subsequent Enabled decisions are
unaffected by writes through the returned value's Packages slice
(Enabled reads only the prebuilt pkgMap and the LogLevel string, which
hold their own copies), and the engine's global LogLevel string is
likewise unaffected — but such a write mutates the backing array
shared with the engine's live Configuration, and later GetConfig
results observe exactly the written element. -/
theorem getConfig_shallow_copy (σ : Store) (c : ConfigRef) (i : Nat) (p : GoPackage)
    (caller : List Char) (lvl : Int) :
    (enabledRef (writeElem σ (getConfigRef (initEngineRef σ c)).packages.arrId i p)
        (initEngineRef σ c) caller lvl
      = enabledRef σ (initEngineRef σ c) caller lvl)
    ∧ (derefConfig (writeElem σ (getConfigRef (initEngineRef σ c)).packages.arrId i p)
        c).logLevel = c.logLevel
    ∧ derefConfig (writeElem σ (getConfigRef (initEngineRef σ c)).packages.arrId i p) c
        = ⟨c.logLevel, (readArr σ c.packages.arrId).set i p⟩ := by
  refine ⟨rfl, rfl, ?_⟩
  show derefConfig (writeElem σ c.packages.arrId i p) c = _
  unfold derefConfig
  rw [readArr_writeElem]
